import Mathlib

/-!
Verification development for the video/audio transcriber repository.

The repository is a browser application whose core is a project-lifecycle
orchestrator (`App.tsx`, in several successive revisions concatenated in the
source tree), an inference/cache service (`services/geminiService.ts` together
with the IndexedDB persistence module), and the shared data model
(`types.ts`).  The definitions below are shallow embeddings of those source
functions: JavaScript numbers used for durations are modelled as `ℚ`, byte
counts and timestamps as `ℕ`, the IndexedDB object stores as key-indexed
partial maps, and promise rejection as `Except`.
-/

/-- `ProjectStatus` from `types.ts`: 'queued' | 'processing' | 'completed' |
'failed' | 'cancelled'. -/
inductive ProjectStatus where
  | queued
  | processing
  | completed
  | failed
  | cancelled
deriving DecidableEq, Repr

/-- `mediaType` values from `types.ts`: 'video' | 'audio'. -/
inductive MediaKind where
  | video
  | audio
deriving DecidableEq, Repr

/-- Chat roles from `types.ts` (`ChatMessage.role`): 'user' | 'model'. -/
inductive ChatRole where
  | user
  | model
deriving DecidableEq, Repr

/-- `ChatMessage` from `types.ts`. -/
structure ChatMessage where
  role : ChatRole
  text : String
deriving DecidableEq, Repr

/-- `TranscriptSegment` from `types.ts`: timestamp string, text, and the
parsed absolute seconds attached by the enrichment step. -/
structure TranscriptSegment where
  timestamp : String
  text : String
  seconds : Nat
deriving DecidableEq, Repr

/-- A chapter as produced by `analyzeVideo` in `geminiService.ts`:
title, timestamp string, and parsed seconds. -/
structure MediaChapter where
  title : String
  timestamp : String
  seconds : Nat
deriving DecidableEq, Repr

/-- The structured analysis returned by `analyzeVideo` in
`geminiService.ts` (summary, topics, chapters, transcript). -/
structure VideoAnalysisData where
  summary : String
  topics : List String
  chapters : List MediaChapter
  transcript : List TranscriptSegment
deriving DecidableEq, Repr

/-- `CachedProject` from `types.ts`: the record stored in the `transcripts`
object store, keyed by the composite fingerprint. -/
structure CachedProject where
  id : String
  data : VideoAnalysisData
  createdAt : Nat
  fileName : String
  fileSize : Nat
  duration : ℚ
deriving DecidableEq, Repr

/-- A `File`/`Blob` payload as the orchestrator sees it: name, byte size,
MIME type, and the binary content (summarised as a string standing for the
base64 payload). -/
structure MediaFile where
  name : String
  size : Nat
  mimeType : String
  payload : String
deriving DecidableEq, Repr

/-- `VideoProject` from `types.ts`.  `previewUrl` is a transient
session-local resource and is not part of the persisted model. -/
structure VideoProject where
  id : String
  file : MediaFile
  fileName : String
  fileSize : Nat
  mimeType : String
  mediaType : MediaKind
  status : ProjectStatus
  createdAt : Nat
  data : Option VideoAnalysisData
  error : Option String
  duration : Option ℚ
  processingTime : Option Nat
  progress : Nat
  chatHistory : List ChatMessage
deriving DecidableEq, Repr

/-- The `transcripts` IndexedDB object store (keyPath 'id'), as a partial
map from fingerprint keys to cached records. -/
def CacheStore : Type := String → Option CachedProject

/-- The `projects` IndexedDB object store (keyPath 'id'), as a partial map
from project ids to project records. -/
def ProjectStore : Type := String → Option VideoProject

/-- IndexedDB `store.put`: insert-or-replace by key ('last write wins'). -/
def putByKey (st : CacheStore) (k : String) (v : CachedProject) : CacheStore :=
  fun key => if key = k then some v else st key

/-- `saveProject` from the persistence module: `store.put(project)` on the
`projects` store, keyed by `project.id` (insert-or-replace). -/
def saveProject (st : ProjectStore) (p : VideoProject) : ProjectStore :=
  fun key => if key = p.id then some p else st key

/-- JavaScript `Math.round`: round half toward positive infinity. -/
def jsRound (q : ℚ) : ℤ := ⌊q + 1 / 2⌋

/-- `generateCacheKey` from the persistence module:
the template string built from file name, byte size and `Math.round(duration)`. -/
def generateCacheKey (fileName : String) (fileSize : Nat) (duration : ℚ) : String :=
  fileName ++ "_" ++ toString fileSize ++ "_" ++ toString (jsRound duration)

/-- `getCachedTranscript` from the persistence module: `store.get(key)` on
the `transcripts` store at the composite fingerprint key. -/
def getCachedTranscript (st : CacheStore) (fileName : String) (fileSize : Nat)
    (duration : ℚ) : Option CachedProject :=
  st (generateCacheKey fileName fileSize duration)

/-- `cacheTranscript` from the persistence module: build the `CachedProject`
record for the fingerprint key and `store.put` it. -/
def cacheTranscript (st : CacheStore) (fileName : String) (fileSize : Nat)
    (duration : ℚ) (data : VideoAnalysisData) (now : Nat) : CacheStore :=
  putByKey st (generateCacheKey fileName fileSize duration)
    { id := generateCacheKey fileName fileSize duration
      data := data
      createdAt := now
      fileName := fileName
      fileSize := fileSize
      duration := duration }

theorem jsRound_near (q : ℚ) : |q - (jsRound q : ℚ)| ≤ 1 / 2 := by
  have h1 : (↑(jsRound q) : ℚ) ≤ q + 1 / 2 := Int.floor_le (q + 1 / 2)
  have h2 : q + 1 / 2 < (jsRound q : ℚ) + 1 := Int.lt_floor_add_one (q + 1 / 2)
  rw [abs_le]
  constructor <;> linarith

/-- C7: the cache fingerprint is exactly
`fileName ++ "_" ++ fileSizeBytes ++ "_" ++ round(durationSeconds)`, where the
embedded integer is within half a second of the true duration (nearest whole
second); in particular `clip.mp4`, 10000000 bytes, 42.4 s yields
`clip.mp4_10000000_42`. -/
theorem claim_C7_fingerprint :
    (∀ (fn : String) (sz : Nat) (dur : ℚ), ∃ r : ℤ,
        |dur - (r : ℚ)| ≤ 1 / 2 ∧
        generateCacheKey fn sz dur = fn ++ "_" ++ toString sz ++ "_" ++ toString r) ∧
    generateCacheKey "clip.mp4" 10000000 (212 / 5) = "clip.mp4_10000000_42" := by
  refine ⟨fun fn sz dur => ⟨jsRound dur, jsRound_near dur, rfl⟩, ?_⟩
  have h : jsRound (212 / 5 : ℚ) = 42 := by
    unfold jsRound
    rw [Int.floor_eq_iff]
    norm_num
  unfold generateCacheKey
  rw [h]
  rfl

/-- C10: storing an analysis with `cacheTranscript` and reading it back with
`getCachedTranscript` under the same `(fileName, fileSize, duration)` returns
a record holding exactly the stored data, and a second `cacheTranscript`
under the same fingerprint overwrites the first (last write wins per key). -/
theorem claim_C10_cache_roundtrip :
    ∀ (st : CacheStore) (fn : String) (sz : Nat) (dur : ℚ)
      (d1 d2 : VideoAnalysisData) (t1 t2 : Nat),
      (getCachedTranscript (cacheTranscript st fn sz dur d1 t1) fn sz dur).map
          CachedProject.data = some d1 ∧
      getCachedTranscript
          (cacheTranscript (cacheTranscript st fn sz dur d1 t1) fn sz dur d2 t2)
          fn sz dur =
        some { id := generateCacheKey fn sz dur, data := d2, createdAt := t2,
               fileName := fn, fileSize := sz, duration := dur } := by
  intro st fn sz dur d1 d2 t1 t2
  constructor <;> simp [getCachedTranscript, cacheTranscript, putByKey]


/-- JavaScript `String.prototype.split` on a single separator character,
modelled structurally over the character list: `splitChars sep cs` is the
list of separator-free groups, with empty groups kept (as JS does). -/
def splitChars (sep : Char) : List Char → List (List Char)
  | [] => [[]]
  | c :: rest =>
    let r := splitChars sep rest
    if c = sep then [] :: r
    else
      match r with
      | [] => [[c]]
      | g :: gs => (c :: g) :: gs

/-- `timestamp.split(':')` as used by `parseTimestamp` in
`geminiService.ts`. -/
def jsSplit (s : String) (sep : Char) : List String :=
  (splitChars sep s.toList).map List.asString

/-- The value of a decimal digit character, if it is one. -/
def digitVal (c : Char) : Option Nat :=
  if '0' ≤ c ∧ c ≤ '9' then some (c.toNat - Char.toNat '0') else none

/-- Decimal reading of a digit string; `none` models the `NaN` that
JavaScript `Number(part)` yields on non-numeric input. -/
def digitsToNat : List Char → Option Nat
  | [] => none
  | cs => cs.foldl (fun acc c =>
      match acc, digitVal c with
      | some n, some d => some (n * 10 + d)
      | _, _ => none) (some 0)

/-- `Number(part)` for a timestamp component: its decimal value when the
part is a digit string (`NaN`, modelled as `none`, otherwise). -/
def jsNumber (s : String) : Option Nat := digitsToNat s.toList

/-- `parseTimestamp` from `geminiService.ts`: split on ':', convert the
parts to numbers, and combine 2 parts as MM:SS, 3 parts as HH:MM:SS,
anything else (including non-numeric parts, which make the JS result `NaN`)
as 0. -/
def parseTimestamp (timestamp : String) : Nat :=
  match (jsSplit timestamp ':').map (fun part => (jsNumber part).getD 0) with
  | [m, s] =>
    if ((jsSplit timestamp ':').map jsNumber).all Option.isSome then m * 60 + s else 0
  | [h, m, s] =>
    if ((jsSplit timestamp ':').map jsNumber).all Option.isSome then
      h * 3600 + m * 60 + s
    else 0
  | _ => 0

/-- A raw transcript item as decoded from the gateway's JSON response,
before enrichment. -/
structure RawSegment where
  timestamp : String
  text : String
deriving DecidableEq, Repr

/-- A raw chapter item as decoded from the gateway's JSON response. -/
structure RawChapter where
  title : String
  timestamp : String
deriving DecidableEq, Repr

/-- The decoded JSON body of a successful gateway response. -/
structure RawAnalysis where
  summary : String
  topics : List String
  chapters : List RawChapter
  transcript : List RawSegment
deriving DecidableEq, Repr

/-- The transcript enrichment in `analyzeVideo`: spread the item and attach
`seconds := parseTimestamp(item.timestamp)`. -/
def enrichSegment (s : RawSegment) : TranscriptSegment :=
  { timestamp := s.timestamp, text := s.text, seconds := parseTimestamp s.timestamp }

/-- The chapter enrichment in `analyzeVideo`: spread the item and attach
`seconds := parseTimestamp(item.timestamp)`. -/
def enrichChapter (c : RawChapter) : MediaChapter :=
  { title := c.title, timestamp := c.timestamp, seconds := parseTimestamp c.timestamp }

/-- The value returned by `analyzeVideo` on success: summary and topics
copied through, chapters and transcript enriched with parsed seconds. -/
def enrichAnalysis (raw : RawAnalysis) : VideoAnalysisData :=
  { summary := raw.summary
    topics := raw.topics
    chapters := raw.chapters.map enrichChapter
    transcript := raw.transcript.map enrichSegment }

/-- C8: a timestamp splitting into two numeric parts parses to
`60 * MM + SS`, one splitting into three parses to `3600 * HH + 60 * MM + SS`;
every transcript segment and every chapter of the enriched result carries
`seconds = parseTimestamp` of its own timestamp string; and the spec's
examples `"00:05" ↦ 5` and `"00:00" ↦ 0` hold. -/
theorem claim_C8_timestamps :
    (∀ (s a b : String) (mm ss : Nat),
        jsSplit s ':' = [a, b] → jsNumber a = some mm → jsNumber b = some ss →
        parseTimestamp s = 60 * mm + ss) ∧
    (∀ (s a b c : String) (hh mm ss : Nat),
        jsSplit s ':' = [a, b, c] →
        jsNumber a = some hh → jsNumber b = some mm → jsNumber c = some ss →
        parseTimestamp s = 3600 * hh + 60 * mm + ss) ∧
    (∀ (raw : RawAnalysis) (seg : TranscriptSegment),
        seg ∈ (enrichAnalysis raw).transcript →
        seg.seconds = parseTimestamp seg.timestamp) ∧
    (∀ (raw : RawAnalysis) (ch : MediaChapter),
        ch ∈ (enrichAnalysis raw).chapters →
        ch.seconds = parseTimestamp ch.timestamp) ∧
    parseTimestamp "00:05" = 5 ∧ parseTimestamp "00:00" = 0 := by
  refine ⟨?_, ?_, ?_, ?_, by decide, by decide⟩
  · intro s a b mm ss hsplit ha hb
    unfold parseTimestamp
    rw [hsplit]
    simp [ha, hb, Nat.mul_comm]
  · intro s a b c hh mm ss hsplit ha hb hc
    unfold parseTimestamp
    rw [hsplit]
    simp [ha, hb, hc, Nat.mul_comm]
  · intro raw seg hmem
    simp only [enrichAnalysis, List.mem_map] at hmem
    obtain ⟨r, _, rfl⟩ := hmem
    rfl
  · intro raw ch hmem
    simp only [enrichAnalysis, List.mem_map] at hmem
    obtain ⟨r, _, rfl⟩ := hmem
    rfl

/-- Closed instance of C8: the spec's example timestamps evaluated through
the two general parsing rules. -/
theorem claim_C8_timestamps_witness :
    parseTimestamp "00:05" = 60 * 0 + 5 ∧
    parseTimestamp "0:10:05" = 3600 * 0 + 60 * 10 + 5 := by
  constructor
  · exact claim_C8_timestamps.1 "00:05" "00" "05" 0 5 (by decide) (by decide) (by decide)
  · exact claim_C8_timestamps.2.1 "0:10:05" "0" "10" "05" 0 10 5
      (by decide) (by decide) (by decide) (by decide)

/-- A JavaScript exception as the orchestrator discriminates it:
either the `DOMException('Aborted', 'AbortError')` used for cancellation,
or any other error carrying a message. -/
inductive JsError where
  | abortError
  | other (msg : String)
deriving DecidableEq, Repr

/-- `analyzeVideo` from `geminiService.ts`, as a function of the observable
nondeterminism: whether the cancellation signal is already aborted at the
pre-call check (line 69), at the post-resolution check (line 95), and at the
`catch` clause (line 126), and the gateway response itself (`.error` covers
both a rejected request and an empty/unparseable body).  The `catch` clause
rethrows everything as `AbortError` when the signal is aborted or the error
already is an `AbortError`. -/
def analyzeVideo (abortedPre abortedPost abortedCatch : Bool)
    (response : Except String RawAnalysis) : Except JsError VideoAnalysisData :=
  let body : Except JsError VideoAnalysisData :=
    if abortedPre then .error .abortError
    else
      match response with
      | .error msg => .error (.other msg)
      | .ok raw =>
        if abortedPost then .error .abortError
        else .ok (enrichAnalysis raw)
  match body with
  | .ok d => .ok d
  | .error e =>
    if abortedCatch ∨ e = .abortError then .error .abortError else .error e

/-- The environment of one `startAnalysis` run: the cache store it reads,
the three abort-signal observations, the gateway response, and the wall
clock at start and end of the run. -/
structure RunEnv where
  cache : CacheStore
  abortedPre : Bool
  abortedPost : Bool
  abortedCatch : Bool
  response : Except String RawAnalysis
  startTime : Nat
  endTime : Nat

/-- The outcome of one `startAnalysis` run: the final project record, the
project store after the run's writes, the cache store after the run's
writes, and how many times the Inference Gateway was actually invoked. -/
structure RunResult where
  project : VideoProject
  store : ProjectStore
  cache : CacheStore
  gatewayCalls : Nat

/-- `startAnalysis` from the orchestrator (`App.tsx`, cache-aware revision,
lines 465-576; the same logic at `src/unnamed/part_000` lines 103-173):
persist the incoming record, probe the cache when a strictly positive
duration is known and finish from the cached data with `processingTime = 0`
on a hit; otherwise call the Inference Gateway, cache a successful result
when the duration is known (truthy), and finish Completed; an `AbortError`
finishes Cancelled with progress 0, any other error finishes Failed with the
error's message and progress 0.  The record transformations are applied to
the project record the run operates on. -/
def startAnalysis (p : VideoProject) (env : RunEnv) (store : ProjectStore) :
    RunResult :=
  let store0 := saveProject store p
  let hit : Option VideoAnalysisData :=
    match p.duration with
    | some d =>
      if 0 < d then
        match getCachedTranscript env.cache p.fileName p.fileSize d with
        | some cached => some cached.data
        | none => none
      else none
    | none => none
  match hit with
  | some cachedData =>
    let completed := { p with
      status := .completed
      data := some cachedData
      processingTime := some 0
      progress := 100 }
    ⟨completed, saveProject store0 completed, env.cache, 0⟩
  | none =>
    let calls := if env.abortedPre then 0 else 1
    match analyzeVideo env.abortedPre env.abortedPost env.abortedCatch env.response with
    | .ok result =>
      let cache1 :=
        match p.duration with
        | some d =>
          if d ≠ 0 then
            cacheTranscript env.cache p.fileName p.fileSize d result env.endTime
          else env.cache
        | none => env.cache
      let completed := { p with
        status := .completed
        data := some result
        processingTime := some (env.endTime - env.startTime)
        progress := 100
        chatHistory := [] }
      ⟨completed, saveProject store0 completed, cache1, calls⟩
    | .error .abortError =>
      let cancelled := { p with status := .cancelled, progress := 0 }
      ⟨cancelled, saveProject store0 cancelled, env.cache, calls⟩
    | .error (.other msg) =>
      let failed := { p with status := .failed, error := some msg, progress := 0 }
      ⟨failed, saveProject store0 failed, env.cache, calls⟩

/-- An abort signal is monotone: once aborted it stays aborted, so an abort
observed at the post-resolution check is still observed in the catch clause,
and one observed before the call is observed after it. -/
def SignalMonotone (env : RunEnv) : Prop :=
  (env.abortedPre = true → env.abortedPost = true) ∧
  (env.abortedPost = true → env.abortedCatch = true)

/-- A run that is not satisfied from the cache (the probe either has no
positive known duration or misses). -/
def CacheMiss (p : VideoProject) (env : RunEnv) : Prop :=
  ∀ d : ℚ, p.duration = some d → 0 < d →
    getCachedTranscript env.cache p.fileName p.fileSize d = none

theorem cacheMiss_hit_none (p : VideoProject) (env : RunEnv)
    (hmiss : CacheMiss p env) :
    (match p.duration with
      | some d =>
        if 0 < d then
          match getCachedTranscript env.cache p.fileName p.fileSize d with
          | some cached => some cached.data
          | none => none
        else none
      | none => none) = (none : Option VideoAnalysisData) := by
  cases hd : p.duration with
  | none => rfl
  | some d =>
    by_cases hpos : 0 < d
    · simp only [hpos, if_true, hmiss d hd hpos]
    · simp only [hpos, if_false]

/-- C2: if the cancellation token is signaled strictly before the Inference
Gateway call resolves (so the post-resolution check already observes the
abort), a gateway-bound run (one not satisfied from the cache) never applies
the Complete transition: its final status is Cancelled, not Completed. -/
theorem claim_C2_cancel_race (p : VideoProject) (env : RunEnv)
    (store : ProjectStore) (hmono : SignalMonotone env)
    (hmiss : CacheMiss p env) (habort : env.abortedPost = true) :
    (startAnalysis p env store).project.status = .cancelled ∧
    (startAnalysis p env store).project.status ≠ .completed := by
  have hcatch : env.abortedCatch = true := hmono.2 habort
  have hanalyze :
      analyzeVideo env.abortedPre env.abortedPost env.abortedCatch env.response =
        .error .abortError := by
    unfold analyzeVideo
    cases hpre : env.abortedPre with
    | true => simp [hcatch]
    | false =>
      cases env.response with
      | error msg => simp [hcatch]
      | ok raw => simp [habort, hcatch]
  have : (startAnalysis p env store).project.status = .cancelled := by
    unfold startAnalysis
    rw [cacheMiss_hit_none p env hmiss]
    simp only [hanalyze]
  exact ⟨this, by rw [this]; decide⟩

/-- Closed instance of C2: a concrete run whose signal is aborted before the
gateway resolves ends Cancelled, not Completed. -/
theorem claim_C2_cancel_race_witness :
    (startAnalysis
        { id := "p1", file := ⟨"a.mp4", 100, "video/mp4", "payload"⟩,
          fileName := "a.mp4", fileSize := 100, mimeType := "video/mp4",
          mediaType := .video, status := .processing, createdAt := 0,
          data := none, error := none, duration := some 10,
          processingTime := none, progress := 0, chatHistory := [] }
        { cache := fun _ => none, abortedPre := false, abortedPost := true,
          abortedCatch := true, response := .ok ⟨"s", [], [], []⟩,
          startTime := 0, endTime := 5 }
        (fun _ => none)).project.status = .cancelled ∧
    (startAnalysis
        { id := "p1", file := ⟨"a.mp4", 100, "video/mp4", "payload"⟩,
          fileName := "a.mp4", fileSize := 100, mimeType := "video/mp4",
          mediaType := .video, status := .processing, createdAt := 0,
          data := none, error := none, duration := some 10,
          processingTime := none, progress := 0, chatHistory := [] }
        { cache := fun _ => none, abortedPre := false, abortedPost := true,
          abortedCatch := true, response := .ok ⟨"s", [], [], []⟩,
          startTime := 0, endTime := 5 }
        (fun _ => none)).project.status ≠ .completed :=
  claim_C2_cancel_race _ _ _
    ⟨fun h => by simp at h, fun _ => rfl⟩ (fun d _ _ => rfl) rfl

theorem startAnalysis_hit (p : VideoProject) (env : RunEnv) (store : ProjectStore)
    (d : ℚ) (entry : CachedProject) (hd : p.duration = some d) (hpos : 0 < d)
    (hget : getCachedTranscript env.cache p.fileName p.fileSize d = some entry) :
    startAnalysis p env store =
      ⟨{ p with
           status := .completed
           data := some entry.data
           processingTime := some 0
           progress := 100 },
       saveProject (saveProject store p)
         { p with
             status := .completed
             data := some entry.data
             processingTime := some 0
             progress := 100 },
       env.cache, 0⟩ := by
  unfold startAnalysis
  rw [hd]
  simp only [hpos, if_true, hget]

theorem startAnalysis_success (p : VideoProject) (env : RunEnv)
    (store : ProjectStore) (d : ℚ) (raw : RawAnalysis)
    (hd : p.duration = some d) (hpos : 0 < d)
    (hget : getCachedTranscript env.cache p.fileName p.fileSize d = none)
    (hpre : env.abortedPre = false) (hpost : env.abortedPost = false)
    (hcatch : env.abortedCatch = false) (hresp : env.response = .ok raw) :
    startAnalysis p env store =
      ⟨{ p with
           status := .completed
           data := some (enrichAnalysis raw)
           processingTime := some (env.endTime - env.startTime)
           progress := 100
           chatHistory := [] },
       saveProject (saveProject store p)
         { p with
             status := .completed
             data := some (enrichAnalysis raw)
             processingTime := some (env.endTime - env.startTime)
             progress := 100
             chatHistory := [] },
       cacheTranscript env.cache p.fileName p.fileSize d (enrichAnalysis raw)
         env.endTime, 1⟩ := by
  have hanalyze :
      analyzeVideo false env.abortedPost env.abortedCatch env.response =
        .ok (enrichAnalysis raw) := by
    unfold analyzeVideo
    rw [hresp, hpost]
    simp
  have hne : d ≠ 0 := ne_of_gt hpos
  unfold startAnalysis
  rw [hd, hpre]
  simp [hpos, hget, hanalyze, hne]

theorem generateCacheKey_congr (fn : String) (sz : Nat) (d1 d2 : ℚ)
    (h : jsRound d1 = jsRound d2) :
    generateCacheKey fn sz d1 = generateCacheKey fn sz d2 := by
  unfold generateCacheKey
  rw [h]

/-- A concrete media payload used to instantiate the lifecycle theorems. -/
def sampleFile : MediaFile :=
  { name := "a.mp4", size := 100, mimeType := "video/mp4", payload := "cGF5" }

/-- A concrete freshly submitted project (status Processing) with a known
positive duration, used to instantiate the lifecycle theorems. -/
def sampleProject : VideoProject :=
  { id := "p1"
    file := sampleFile
    fileName := "a.mp4"
    fileSize := 100
    mimeType := "video/mp4"
    mediaType := .video
    status := .processing
    createdAt := 0
    data := none
    error := none
    duration := some 10
    processingTime := none
    progress := 0
    chatHistory := [] }

/-- A concrete gateway response body. -/
def sampleRaw : RawAnalysis :=
  { summary := "s"
    topics := ["t"]
    chapters := [{ title := "Intro", timestamp := "00:00" }]
    transcript := [{ timestamp := "00:05", text := "hello" }] }

/-- A run environment with an empty cache, an unsignaled token and a
successful gateway response. -/
def sampleEnvOk : RunEnv :=
  { cache := fun _ => none
    abortedPre := false
    abortedPost := false
    abortedCatch := false
    response := .ok sampleRaw
    startTime := 0
    endTime := 5 }

/-- The environment of a second run over the same fingerprint: it reads the
cache left by the first run. -/
def sampleEnvSecond : RunEnv :=
  { cache := (startAnalysis sampleProject sampleEnvOk (fun _ => none)).cache
    abortedPre := false
    abortedPost := false
    abortedCatch := false
    response := .ok sampleRaw
    startTime := 7
    endTime := 9 }

/-- The same submission fingerprint resubmitted as a second project. -/
def sampleProjectSecond : VideoProject :=
  { sampleProject with id := "p2", createdAt := 1 }

/-- C3: a Start on a project with a known strictly positive duration whose
fingerprint hits the cache completes the project from the cached data with
`processingTime = 0` and zero gateway calls; and when a first run (cache
miss, no abort, successful response) is followed by a second Start whose
`(fileName, fileSizeBytes, round(duration))` fingerprint is identical and
which reads the cache the first run wrote, the two runs together make
exactly one gateway call and the second completes with `processingTime = 0`
from the first run's result. -/
theorem claim_C3_cache_idempotence :
    (∀ (p : VideoProject) (env : RunEnv) (store : ProjectStore) (d : ℚ)
        (entry : CachedProject),
        p.duration = some d → 0 < d →
        getCachedTranscript env.cache p.fileName p.fileSize d = some entry →
        (startAnalysis p env store).project.status = .completed ∧
        (startAnalysis p env store).project.data = some entry.data ∧
        (startAnalysis p env store).project.processingTime = some 0 ∧
        (startAnalysis p env store).gatewayCalls = 0) ∧
    (∀ (p1 p2 : VideoProject) (env1 env2 : RunEnv)
        (store1 store2 : ProjectStore) (d1 d2 : ℚ) (raw : RawAnalysis),
        p1.duration = some d1 → 0 < d1 →
        getCachedTranscript env1.cache p1.fileName p1.fileSize d1 = none →
        env1.abortedPre = false → env1.abortedPost = false →
        env1.abortedCatch = false → env1.response = .ok raw →
        p2.fileName = p1.fileName → p2.fileSize = p1.fileSize →
        p2.duration = some d2 → 0 < d2 → jsRound d2 = jsRound d1 →
        env2.cache = (startAnalysis p1 env1 store1).cache →
        (startAnalysis p1 env1 store1).gatewayCalls +
            (startAnalysis p2 env2 store2).gatewayCalls = 1 ∧
        (startAnalysis p2 env2 store2).project.status = .completed ∧
        (startAnalysis p2 env2 store2).project.processingTime = some 0 ∧
        (startAnalysis p2 env2 store2).project.data =
          some (enrichAnalysis raw)) := by
  constructor
  · intro p env store d entry hd hpos hget
    rw [startAnalysis_hit p env store d entry hd hpos hget]
    exact ⟨rfl, rfl, rfl, rfl⟩
  · intro p1 p2 env1 env2 store1 store2 d1 d2 raw hd1 hpos1 hmiss1 hpre1 hpost1
      hcatch1 hresp1 hfn hfs hd2 hpos2 hround hcache2
    have hrun1 := startAnalysis_success p1 env1 store1 d1 raw hd1 hpos1 hmiss1
      hpre1 hpost1 hcatch1 hresp1
    have hcache2' : env2.cache =
        cacheTranscript env1.cache p1.fileName p1.fileSize d1
          (enrichAnalysis raw) env1.endTime := by
      rw [hcache2, hrun1]
    have hget2 : getCachedTranscript env2.cache p2.fileName p2.fileSize d2 =
        some { id := generateCacheKey p1.fileName p1.fileSize d1
               data := enrichAnalysis raw
               createdAt := env1.endTime
               fileName := p1.fileName
               fileSize := p1.fileSize
               duration := d1 } := by
      rw [hcache2', hfn, hfs]
      unfold getCachedTranscript cacheTranscript putByKey
      rw [generateCacheKey_congr p1.fileName p1.fileSize d2 d1 hround]
      simp
    have hrun2 := startAnalysis_hit p2 env2 store2 d2 _ hd2 hpos2 hget2
    rw [hrun1, hrun2]
    exact ⟨rfl, rfl, rfl, rfl⟩

/-- Closed instance of C3: a concrete first run (cache miss, successful
gateway response) followed by a fingerprint-identical second run makes one
gateway call in total, and the second run completes instantly from cache
with `processingTime = 0`. -/
theorem claim_C3_cache_idempotence_witness :
    (startAnalysis sampleProject sampleEnvOk (fun _ => none)).gatewayCalls +
        (startAnalysis sampleProjectSecond sampleEnvSecond
          (fun _ => none)).gatewayCalls = 1 ∧
    (startAnalysis sampleProjectSecond sampleEnvSecond
        (fun _ => none)).project.status = .completed ∧
    (startAnalysis sampleProjectSecond sampleEnvSecond
        (fun _ => none)).project.processingTime = some 0 ∧
    (startAnalysis sampleProjectSecond sampleEnvSecond
        (fun _ => none)).project.data = some (enrichAnalysis sampleRaw) :=
  claim_C3_cache_idempotence.2 sampleProject sampleProjectSecond sampleEnvOk
    sampleEnvSecond (fun _ => none) (fun _ => none) 10 10 sampleRaw
    rfl (by norm_num) rfl rfl rfl rfl rfl rfl rfl rfl (by norm_num) rfl rfl

/-- The per-record hydration step of `loadProjects` (orchestrator revision
with queued handling, `App.tsx` lines 1008-1033): a record persisted as
Processing or Queued is rewritten to Failed with the "Session interrupted"
reason; terminal records pass through unchanged (the re-created
`previewUrl` is transient and outside this model). -/
def hydrateProject (p : VideoProject) : VideoProject :=
  if p.status = .processing ∨ p.status = .queued then
    { p with status := .failed, error := some "Session interrupted" }
  else p

/-- `loadProjects` from the same revision: map every persisted record
through hydration, writing each corrected record back to the project store
immediately, in load order. -/
def loadProjects : List VideoProject → ProjectStore → List VideoProject × ProjectStore
  | [], store => ([], store)
  | p :: rest, store =>
    let q := hydrateProject p
    let store1 :=
      if p.status = .processing ∨ p.status = .queued then saveProject store q
      else store
    let res := loadProjects rest store1
    (q :: res.1, res.2)

theorem hydrateProject_id (p : VideoProject) : (hydrateProject p).id = p.id := by
  unfold hydrateProject
  split <;> rfl

theorem hydrateProject_terminal (p : VideoProject) :
    (hydrateProject p).status ≠ .processing ∧ (hydrateProject p).status ≠ .queued := by
  unfold hydrateProject
  split
  · exact ⟨by simp, by simp⟩
  · rename_i h
    push_neg at h
    exact h

theorem loadProjects_fst (saved : List VideoProject) (store : ProjectStore) :
    (loadProjects saved store).1 = saved.map hydrateProject := by
  induction saved generalizing store with
  | nil => rfl
  | cons p rest ih =>
    unfold loadProjects
    simp [ih]

theorem loadProjects_store_frame (saved : List VideoProject)
    (store : ProjectStore) (k : String) (h : ∀ r ∈ saved, r.id ≠ k) :
    (loadProjects saved store).2 k = store k := by
  induction saved generalizing store with
  | nil => rfl
  | cons p rest ih =>
    unfold loadProjects
    simp only
    rw [ih _ (fun r hr => h r (List.mem_cons_of_mem p hr))]
    split
    · unfold saveProject
      rw [hydrateProject_id]
      simp [Ne.symm (h p (List.mem_cons_self p rest))]
    · rfl

theorem loadProjects_store_corrected (saved : List VideoProject)
    (store : ProjectStore) (p : VideoProject)
    (hnodup : (saved.map VideoProject.id).Nodup) (hmem : p ∈ saved)
    (hnt : p.status = .processing ∨ p.status = .queued) :
    (loadProjects saved store).2 p.id = some (hydrateProject p) := by
  induction saved generalizing store with
  | nil => cases hmem
  | cons q rest ih =>
    rw [List.map_cons, List.nodup_cons] at hnodup
    rcases List.mem_cons.1 hmem with rfl | hmem'
    · have hrest : ∀ r ∈ rest, r.id ≠ p.id := by
        intro r hr heq
        exact hnodup.1 (heq ▸ List.mem_map_of_mem VideoProject.id hr)
      unfold loadProjects
      simp only
      rw [loadProjects_store_frame rest _ p.id hrest]
      rw [if_pos hnt]
      unfold saveProject
      rw [hydrateProject_id]
      simp
    · unfold loadProjects
      simp only
      exact ih _ hnodup.2 hmem'

/-- C1: after the startup load, every record persisted as Processing or
Queued is delivered with status Failed and the "Session interrupted" reason
and that correction is written to the store immediately (assuming the store
delivered distinct ids, as a keyed object store does); the loaded list is
exactly the hydration of the persisted list, and no loaded project is left
in a non-terminal status. -/
theorem claim_C1_reconciliation :
    (∀ (saved : List VideoProject) (store : ProjectStore),
        (loadProjects saved store).1 = saved.map hydrateProject) ∧
    (∀ p : VideoProject, p.status = .processing ∨ p.status = .queued →
        (hydrateProject p).status = .failed ∧
        (hydrateProject p).error = some "Session interrupted") ∧
    (∀ (saved : List VideoProject) (store : ProjectStore) (q : VideoProject),
        q ∈ (loadProjects saved store).1 →
        q.status ≠ .processing ∧ q.status ≠ .queued) ∧
    (∀ (saved : List VideoProject) (store : ProjectStore) (p : VideoProject),
        (saved.map VideoProject.id).Nodup → p ∈ saved →
        p.status = .processing ∨ p.status = .queued →
        (loadProjects saved store).2 p.id = some (hydrateProject p)) := by
  refine ⟨loadProjects_fst, ?_, ?_, loadProjects_store_corrected⟩
  · intro p hp
    unfold hydrateProject
    rw [if_pos hp]
    exact ⟨rfl, rfl⟩
  · intro saved store q hq
    rw [loadProjects_fst] at hq
    obtain ⟨r, _, rfl⟩ := List.mem_map.1 hq
    exact hydrateProject_terminal r

/-- Closed instance of C1: a store holding one record persisted as
Processing is loaded as Failed with the "Session interrupted" reason, and
the correction is persisted. -/
theorem claim_C1_reconciliation_witness :
    (hydrateProject sampleProject).status = .failed ∧
    (hydrateProject sampleProject).error = some "Session interrupted" ∧
    (loadProjects [sampleProject] (fun _ => none)).2 sampleProject.id =
      some (hydrateProject sampleProject) := by
  refine ⟨(claim_C1_reconciliation.2.1 sampleProject (Or.inl rfl)).1,
    (claim_C1_reconciliation.2.1 sampleProject (Or.inl rfl)).2,
    claim_C1_reconciliation.2.2.2 [sampleProject] (fun _ => none) sampleProject
      (by simp) (List.mem_singleton.2 rfl) (Or.inl rfl)⟩

/-- The user message appended at the start of a chat turn. -/
def userMessage (text : String) : ChatMessage :=
  { role := .user, text := text }

/-- The optimistic first half of `handleChatMessage`: the user's message is
appended to the project's `chatHistory` (and pushed to state) before the
gateway's chat operation is invoked. -/
def chatOptimistic (p : VideoProject) (text : String) : VideoProject :=
  { p with chatHistory := p.chatHistory ++ [userMessage text] }

/-- `handleChatMessage` from the orchestrator revision at `App.tsx` lines
1146-1171: append the user message optimistically, then on a successful
gateway answer append the assistant ('model') message; on a failed turn only
a transient notification is emitted and the record keeps the appended user
message.  Only `chatHistory` is ever touched. -/
def chatTurn (p : VideoProject) (text : String)
    (outcome : Except String String) : VideoProject :=
  let optimistic := chatOptimistic p text
  match outcome with
  | .ok answer =>
    { optimistic with
        chatHistory := optimistic.chatHistory ++ [{ role := .model, text := answer }] }
  | .error _ => optimistic

/-- `handleChatMessage` from the first orchestrator revision (`App.tsx`
lines 145-185): identical except that a failed turn appends a synthetic
assistant message describing the error. -/
def chatTurnV1 (p : VideoProject) (text : String)
    (outcome : Except String String) : VideoProject :=
  let optimistic := chatOptimistic p text
  match outcome with
  | .ok answer =>
    { optimistic with
        chatHistory := optimistic.chatHistory ++ [{ role := .model, text := answer }] }
  | .error _ =>
    { optimistic with
        chatHistory := optimistic.chatHistory ++
          [{ role := .model,
             text := "Sorry, I encountered an error processing your request." }] }

/-- A sequence of successful chat turns (question and answer pairs). -/
def runChatTurns (p : VideoProject) : List (String × String) → VideoProject
  | [] => p
  | (q, a) :: rest => runChatTurns (chatTurn p q (.ok a)) rest

theorem take_succ_append {α : Type} (l : List α) (u : α) (r : List α) :
    (l ++ u :: r).take (l.length + 1) = l ++ [u] := by
  induction l with
  | nil => simp
  | cons a l ih => simp [ih]

theorem runChatTurns_length (turns : List (String × String)) (p : VideoProject) :
    (runChatTurns p turns).chatHistory.length =
      p.chatHistory.length + 2 * turns.length := by
  induction turns generalizing p with
  | nil => simp [runChatTurns]
  | cons t rest ih =>
    obtain ⟨q, a⟩ := t
    rw [runChatTurns, ih]
    simp [chatTurn, chatOptimistic]
    ring

/-- C5: the user's message is appended before the gateway call; whatever the
turn's outcome, the project's status is unchanged and the already-appended
user message is still in place (the history up to that point is exactly the
old history plus the user message) — in both revisions of the handler; and
after N successful turns starting from an empty history the history has
exactly 2N messages. -/
theorem claim_C5_chat_append_only :
    (∀ (p : VideoProject) (text : String),
        (chatOptimistic p text).chatHistory =
          p.chatHistory ++ [userMessage text]) ∧
    (∀ (p : VideoProject) (text : String) (outcome : Except String String),
        (chatTurn p text outcome).status = p.status ∧
        (chatTurn p text outcome).chatHistory.take (p.chatHistory.length + 1) =
          p.chatHistory ++ [userMessage text]) ∧
    (∀ (p : VideoProject) (text : String) (outcome : Except String String),
        (chatTurnV1 p text outcome).status = p.status ∧
        (chatTurnV1 p text outcome).chatHistory.take (p.chatHistory.length + 1) =
          p.chatHistory ++ [userMessage text]) ∧
    (∀ (p : VideoProject) (turns : List (String × String)),
        p.chatHistory = [] →
        (runChatTurns p turns).chatHistory.length = 2 * turns.length) := by
  refine ⟨fun p text => rfl, ?_, ?_, ?_⟩
  · intro p text outcome
    cases outcome with
    | ok answer =>
      refine ⟨rfl, ?_⟩
      show ((p.chatHistory ++ [userMessage text]) ++ _).take _ = _
      rw [List.append_assoc]
      exact take_succ_append p.chatHistory (userMessage text) _
    | error e =>
      refine ⟨rfl, ?_⟩
      show (p.chatHistory ++ [userMessage text]).take _ = _
      exact take_succ_append p.chatHistory (userMessage text) []
  · intro p text outcome
    cases outcome with
    | ok answer =>
      refine ⟨rfl, ?_⟩
      show ((p.chatHistory ++ [userMessage text]) ++ _).take _ = _
      rw [List.append_assoc]
      exact take_succ_append p.chatHistory (userMessage text) _
    | error e =>
      refine ⟨rfl, ?_⟩
      show ((p.chatHistory ++ [userMessage text]) ++ _).take _ = _
      rw [List.append_assoc]
      exact take_succ_append p.chatHistory (userMessage text) _
  · intro p turns hempty
    rw [runChatTurns_length, hempty]
    simp

/-- Closed instance of C5: two successful turns on a freshly completed
project (empty history) yield a four-message history, and a failed turn
keeps the user message and the status. -/
theorem claim_C5_chat_append_only_witness :
    (runChatTurns sampleProject [("q1", "a1"), ("q2", "a2")]).chatHistory.length =
      2 * 2 ∧
    (chatTurn sampleProject "q1" (.error "boom")).status = sampleProject.status ∧
    (chatTurn sampleProject "q1"
        (.error "boom")).chatHistory.take (sampleProject.chatHistory.length + 1) =
      sampleProject.chatHistory ++ [userMessage "q1"] :=
  ⟨claim_C5_chat_append_only.2.2.2 sampleProject [("q1", "a1"), ("q2", "a2")] rfl,
   (claim_C5_chat_append_only.2.1 sampleProject "q1" (.error "boom")).1,
   (claim_C5_chat_append_only.2.1 sampleProject "q1" (.error "boom")).2⟩

/-- The two records produced by `handleRetry` in the orchestrator revision
at `App.tsx` lines 1131-1137: the merged in-memory/persisted update
(status Processing, progress 5, error cleared) and the argument passed to
`startAnalysis` (the same record with only the status forced to
Processing). -/
structure RetryResult where
  updated : VideoProject
  startArg : VideoProject

/-- `handleRetry` from `App.tsx` lines 1131-1137. -/
def handleRetry (p : VideoProject) : RetryResult :=
  { updated := { p with status := .processing, progress := 5, error := none }
    startArg := { p with status := .processing } }

/-- C4: retrying a Failed or Cancelled project resets exactly
`progressPercent` (to the small positive value 5) and clears `errorReason`,
leaves `id`, `fileName`, the source payload and `chatHistory` unchanged,
and re-invokes Start on the same payload (same `file`, `fileName`,
`fileSize`, `id`) with no re-upload. -/
theorem claim_C4_retry_frame (p : VideoProject)
    (hterm : p.status = .failed ∨ p.status = .cancelled) :
    (handleRetry p).updated.status = .processing ∧
    (handleRetry p).updated.progress = 5 ∧
    0 < (handleRetry p).updated.progress ∧
    (handleRetry p).updated.error = none ∧
    (handleRetry p).updated.id = p.id ∧
    (handleRetry p).updated.fileName = p.fileName ∧
    (handleRetry p).updated.file = p.file ∧
    (handleRetry p).updated.chatHistory = p.chatHistory ∧
    (handleRetry p).updated.data = p.data ∧
    (handleRetry p).updated.createdAt = p.createdAt ∧
    (handleRetry p).startArg.file = p.file ∧
    (handleRetry p).startArg.fileName = p.fileName ∧
    (handleRetry p).startArg.fileSize = p.fileSize ∧
    (handleRetry p).startArg.id = p.id ∧
    (handleRetry p).startArg.status = .processing := by
  refine ⟨rfl, rfl, ?_, rfl, rfl, rfl, rfl, rfl, rfl, rfl, rfl, rfl, rfl, rfl, rfl⟩
  show (0 : Nat) < 5
  decide

/-- Closed instance of C4: retrying a concrete failed project. -/
theorem claim_C4_retry_frame_witness :
    (handleRetry { sampleProject with
        status := .failed, error := some "boom" }).updated.error = none ∧
    (handleRetry { sampleProject with
        status := .failed, error := some "boom" }).updated.progress = 5 ∧
    (handleRetry { sampleProject with
        status := .failed, error := some "boom" }).startArg.file =
      ({ sampleProject with status := .failed, error := some "boom" } :
        VideoProject).file :=
  ⟨(claim_C4_retry_frame _ (Or.inl rfl)).2.2.2.1,
   (claim_C4_retry_frame _ (Or.inl rfl)).2.1,
   (claim_C4_retry_frame _ (Or.inl rfl)).2.2.2.2.2.2.2.2.2.2.1⟩

/-- The size ceiling `MAX_FILE_SIZE` from `App.tsx` line 962: 50 MB. -/
def MAX_FILE_SIZE : Nat := 50 * 1024 * 1024

/-- The orchestrator state touched by `handleFileSelect`: the in-memory
project list, the durable project store, and the transient notification
queue (messages only). -/
structure AppEnvState where
  projects : List VideoProject
  store : ProjectStore
  toasts : List String

/-- `handleFileSelect` from the orchestrator revision at `App.tsx` lines
1102-1129: a file above `MAX_FILE_SIZE` is rejected with a transient error
notification before any project exists; otherwise the new Processing
project (probed duration, progress 5, empty chat) is prepended to the list
and persisted, and analysis starts. -/
def handleFileSelect (st : AppEnvState) (f : MediaFile) (freshId : String)
    (probedDuration : ℚ) (now : Nat) : AppEnvState :=
  if f.size > MAX_FILE_SIZE then
    { st with toasts := st.toasts ++ ["File too large (Max 50MB)."] }
  else
    let p : VideoProject :=
      { id := freshId
        file := f
        fileName := f.name
        fileSize := f.size
        mimeType := f.mimeType
        mediaType := if f.mimeType.startsWith "audio/" then .audio else .video
        status := .processing
        createdAt := now
        data := none
        error := none
        duration := some probedDuration
        processingTime := none
        progress := 5
        chatHistory := [] }
    { projects := p :: st.projects
      store := saveProject st.store p
      toasts := st.toasts }

/-- C9: a file whose size exceeds the configured ceiling creates no project
— the in-memory collection and the durable store are exactly as before —
and only appends one transient error notification. -/
theorem claim_C9_size_ceiling (st : AppEnvState) (f : MediaFile)
    (freshId : String) (probedDuration : ℚ) (now : Nat)
    (hbig : f.size > MAX_FILE_SIZE) :
    (handleFileSelect st f freshId probedDuration now).projects = st.projects ∧
    (handleFileSelect st f freshId probedDuration now).store = st.store ∧
    (handleFileSelect st f freshId probedDuration now).toasts =
      st.toasts ++ ["File too large (Max 50MB)."] := by
  unfold handleFileSelect
  rw [if_pos hbig]
  exact ⟨rfl, rfl, rfl⟩

/-- Closed instance of C9: a 60 MB file is rejected without touching the
project list or the store. -/
theorem claim_C9_size_ceiling_witness :
    (handleFileSelect ⟨[], fun _ => none, []⟩
        ⟨"big.mp4", 60000000, "video/mp4", "x"⟩ "p9" 10 0).projects = [] ∧
    (handleFileSelect ⟨[], fun _ => none, []⟩
        ⟨"big.mp4", 60000000, "video/mp4", "x"⟩ "p9" 10 0).toasts =
      [] ++ ["File too large (Max 50MB)."] :=
  ⟨(claim_C9_size_ceiling ⟨[], fun _ => none, []⟩
      ⟨"big.mp4", 60000000, "video/mp4", "x"⟩ "p9" 10 0 (by decide)).1,
   (claim_C9_size_ceiling ⟨[], fun _ => none, []⟩
      ⟨"big.mp4", 60000000, "video/mp4", "x"⟩ "p9" 10 0 (by decide)).2.2⟩

/-- The project record created by `handleFileSelect` in the cache-aware
orchestrator revision (`App.tsx` lines 578-601): status Processing,
progress 0, empty chat history, probed duration. -/
def freshProjectV2 (f : MediaFile) (freshId : String) (now : Nat)
    (probedDuration : ℚ) : VideoProject :=
  { id := freshId
    file := f
    fileName := f.name
    fileSize := f.size
    mimeType := f.mimeType
    mediaType := if f.mimeType.startsWith "audio/" then .audio else .video
    status := .processing
    createdAt := now
    data := none
    error := none
    duration := some probedDuration
    processingTime := none
    progress := 0
    chatHistory := [] }

/-- The record update applied by `handleStop` (`App.tsx` lines 649-661) to
the stopped project: status Cancelled, progress 0, every other field —
including `data` and `error` — left as it was.  The orchestrator's abort
catch branch (lines 554-561) applies the same update. -/
def handleStop (p : VideoProject) : VideoProject :=
  { p with status := .cancelled, progress := 0 }

/-- The in-memory update applied by `handleRetry` in the same revision
(`App.tsx` lines 640-647): back to Processing, `error` and
`processingTime` cleared, progress 0. -/
def retryClear (p : VideoProject) : VideoProject :=
  { p with
      status := .processing
      error := none
      processingTime := none
      progress := 0 }

/-- The record produced by a successful run: `startAnalysis` spreads the
project value the run was invoked with (`{...project}` — not the current
in-memory record) and sets status Completed, the analysis data, the elapsed
(or zero, on a cache hit) processing time, progress 100, and the run's chat
history (kept on a cache hit, emptied after a gateway completion). -/
def completeRun (arg : VideoProject) (d : VideoAnalysisData) (pt : Nat)
    (ch : List ChatMessage) : VideoProject :=
  { arg with
      status := .completed
      data := some d
      processingTime := some pt
      progress := 100
      chatHistory := ch }

/-- The record update applied by the non-abort catch branch of
`startAnalysis` (lines 562-569) to the current in-memory record: status
Failed, the error's message, progress 0. -/
def failRunOf (p : VideoProject) (msg : String) : VideoProject :=
  { p with status := .failed, error := some msg, progress := 0 }

/-- The states `(current record, in-flight run argument)` a single
project's record can reach in the cache-aware orchestrator revision:
submission starts a run on the fresh record; a run ends by completing (on
the record it was invoked with), cancelling, or failing (both on the
current record); Stop cancels the current Processing record; Retry
re-enters Processing from Failed or Cancelled, starting a run on the stale
pre-retry record; chat turns touch only the history. -/
inductive ReachableRec : VideoProject → Option VideoProject → Prop where
  | submit (f : MediaFile) (freshId : String) (now : Nat) (dur : ℚ) :
      ReachableRec (freshProjectV2 f freshId now dur)
        (some (freshProjectV2 f freshId now dur))
  | complete (cur arg : VideoProject) (d : VideoAnalysisData) (pt : Nat)
      (ch : List ChatMessage) :
      ReachableRec cur (some arg) → ReachableRec (completeRun arg d pt ch) none
  | cancelRun (cur arg : VideoProject) :
      ReachableRec cur (some arg) → ReachableRec (handleStop cur) none
  | failRun (cur arg : VideoProject) (msg : String) :
      ReachableRec cur (some arg) → ReachableRec (failRunOf cur msg) none
  | stop (cur : VideoProject) (fl : Option VideoProject) :
      ReachableRec cur fl → cur.status = .processing →
      ReachableRec (handleStop cur) fl
  | retry (cur : VideoProject) :
      ReachableRec cur none → cur.status = .failed ∨ cur.status = .cancelled →
      ReachableRec (retryClear cur) (some cur)
  | chatOk (cur : VideoProject) (fl : Option VideoProject) (q a : String) :
      ReachableRec cur fl → ReachableRec (chatTurn cur q (.ok a)) fl
  | chatErr (cur : VideoProject) (fl : Option VideoProject) (q e : String) :
      ReachableRec cur fl → ReachableRec (chatTurn cur q (.error e)) fl

/-- The claim's 'exactly one of result and errorReason is set'. -/
def ExactlyOneSet (p : VideoProject) : Prop :=
  (p.data.isSome ∧ p.error = none) ∨ (p.error.isSome ∧ p.data = none)

theorem reachableRec_inv (cur : VideoProject) (fl : Option VideoProject)
    (h : ReachableRec cur fl) :
    ((cur.data.isSome ↔ cur.status = .completed) ∧
      (cur.status = .failed → cur.error.isSome) ∧
      (cur.status = .cancelled → cur.error = none) ∧
      (cur.status = .processing → cur.error = none)) ∧
    (fl.isSome → cur.status = .processing ∨ cur.status = .cancelled) := by
  induction h with
  | submit f freshId now dur =>
    refine ⟨⟨by simp [freshProjectV2], ?_, ?_, fun _ => rfl⟩, fun _ => Or.inl rfl⟩
    · intro hc
      simp [freshProjectV2] at hc
    · intro hc
      simp [freshProjectV2] at hc
  | complete cur arg d pt ch h ih =>
    refine ⟨⟨by simp [completeRun], ?_, ?_, ?_⟩, by simp⟩
    · intro hc
      simp [completeRun] at hc
    · intro hc
      simp [completeRun] at hc
    · intro hc
      simp [completeRun] at hc
  | cancelRun cur arg h ih =>
    have hst := ih.2 (by simp)
    have hdata : cur.data = none := by
      rcases hst with hp | hc
      · exact Option.not_isSome_iff_eq_none.1 (fun hs => by
          have := ih.1.1.1 hs
          rw [hp] at this
          cases this)
      · exact Option.not_isSome_iff_eq_none.1 (fun hs => by
          have := ih.1.1.1 hs
          rw [hc] at this
          cases this)
    have herr : cur.error = none := by
      rcases hst with hp | hc
      · exact ih.1.2.2.2 hp
      · exact ih.1.2.2.1 hc
    refine ⟨⟨?_, ?_, fun _ => herr, ?_⟩, by simp⟩
    · simp [handleStop, hdata]
    · intro hc
      simp [handleStop] at hc
    · intro hc
      simp [handleStop] at hc
  | failRun cur arg msg h ih =>
    have hst := ih.2 (by simp)
    have hdata : cur.data = none := by
      rcases hst with hp | hc
      · exact Option.not_isSome_iff_eq_none.1 (fun hs => by
          have := ih.1.1.1 hs
          rw [hp] at this
          cases this)
      · exact Option.not_isSome_iff_eq_none.1 (fun hs => by
          have := ih.1.1.1 hs
          rw [hc] at this
          cases this)
    refine ⟨⟨by simp [failRunOf, hdata], fun _ => by simp [failRunOf], ?_, ?_⟩,
      by simp⟩
    · intro hc
      simp [failRunOf] at hc
    · intro hc
      simp [failRunOf] at hc
  | stop cur fl h hproc ih =>
    have hdata : cur.data = none := by
      refine Option.not_isSome_iff_eq_none.1 (fun hs => ?_)
      have := ih.1.1.1 hs
      rw [hproc] at this
      cases this
    have herr : cur.error = none := ih.1.2.2.2 hproc
    refine ⟨⟨by simp [handleStop, hdata], ?_, fun _ => herr, ?_⟩,
      fun _ => Or.inr rfl⟩
    · intro hc
      simp [handleStop] at hc
    · intro hc
      simp [handleStop] at hc
  | retry cur h hterm ih =>
    have hdata : cur.data = none := by
      refine Option.not_isSome_iff_eq_none.1 (fun hs => ?_)
      have := ih.1.1.1 hs
      rcases hterm with hf | hc
      · rw [hf] at this
        cases this
      · rw [hc] at this
        cases this
    refine ⟨⟨by simp [retryClear, hdata], ?_, ?_, fun _ => by simp [retryClear]⟩,
      fun _ => Or.inl rfl⟩
    · intro hc
      simp [retryClear] at hc
    · intro hc
      simp [retryClear] at hc
  | chatOk cur fl q a h ih =>
    simpa [chatTurn, chatOptimistic] using ih
  | chatErr cur fl q e h ih =>
    simpa [chatTurn, chatOptimistic] using ih

/-- C6 is refuted by the code: `handleStop` on a Processing project yields
a reachable terminal (Cancelled) record with neither `data` nor `error`
set, and a retried run that completes spreads the stale failed record, so
a reachable Completed record can carry both `data` and the stale `error` —
in both cases 'exactly one of {result, errorReason}' fails. -/
theorem claim_C6_refuted :
    ReachableRec (handleStop (freshProjectV2 sampleFile "px" 0 10))
      (some (freshProjectV2 sampleFile "px" 0 10)) ∧
    (handleStop (freshProjectV2 sampleFile "px" 0 10)).status = .cancelled ∧
    ¬ ExactlyOneSet (handleStop (freshProjectV2 sampleFile "px" 0 10)) ∧
    ReachableRec
      (completeRun (failRunOf (freshProjectV2 sampleFile "py" 0 10) "boom")
        (enrichAnalysis sampleRaw) 5 []) none ∧
    (completeRun (failRunOf (freshProjectV2 sampleFile "py" 0 10) "boom")
        (enrichAnalysis sampleRaw) 5 []).status = .completed ∧
    ¬ ExactlyOneSet
        (completeRun (failRunOf (freshProjectV2 sampleFile "py" 0 10) "boom")
          (enrichAnalysis sampleRaw) 5 []) := by
  refine ⟨ReachableRec.stop _ _ (ReachableRec.submit sampleFile "px" 0 10) rfl,
    rfl, ?_, ?_, rfl, ?_⟩
  · intro hone
    rcases hone with ⟨hdata, _⟩ | ⟨herr, _⟩
    · simp [handleStop, freshProjectV2] at hdata
    · simp [handleStop, freshProjectV2] at herr
  · exact ReachableRec.complete _ _ _ _ _
      (ReachableRec.retry _
        (ReachableRec.failRun _ _ "boom" (ReachableRec.submit sampleFile "py" 0 10))
        (Or.inl rfl))
  · intro hone
    rcases hone with ⟨_, herr⟩ | ⟨_, hdata⟩
    · simp [completeRun, failRunOf, freshProjectV2] at herr
    · simp [completeRun, failRunOf, freshProjectV2] at hdata

/-- C6 (amended): on every reachable record, the structured result is
present iff status = Completed; a Failed record has an errorReason and no
result (so 'exactly one set' holds for Failed); but a Cancelled record has
neither result nor errorReason, and a Completed record is only guaranteed a
result — a run completed after a retry can retain the stale pre-retry
errorReason alongside it. -/
theorem claim_C6_terminal_fields (cur : VideoProject) (fl : Option VideoProject)
    (h : ReachableRec cur fl) :
    (cur.data.isSome ↔ cur.status = .completed) ∧
    (cur.status = .failed → cur.error.isSome ∧ cur.data = none) ∧
    (cur.status = .cancelled → cur.data = none ∧ cur.error = none) := by
  obtain ⟨⟨hiff, hfail, hcanc, _⟩, _⟩ := reachableRec_inv cur fl h
  refine ⟨hiff, fun hf => ⟨hfail hf, ?_⟩, fun hc => ⟨?_, hcanc hc⟩⟩
  · refine Option.not_isSome_iff_eq_none.1 (fun hs => ?_)
    have := hiff.1 hs
    rw [hf] at this
    cases this
  · refine Option.not_isSome_iff_eq_none.1 (fun hs => ?_)
    have := hiff.1 hs
    rw [hc] at this
    cases this

/-- Closed instance of the amended C6 at a concrete reachable state: a run
that failed over a fresh submission has an errorReason and no result. -/
theorem claim_C6_terminal_fields_witness :
    (failRunOf (freshProjectV2 sampleFile "pw" 0 10) "oops").error.isSome ∧
    (failRunOf (freshProjectV2 sampleFile "pw" 0 10) "oops").data = none :=
  (claim_C6_terminal_fields _ none
    (ReachableRec.failRun _ _ "oops"
      (ReachableRec.submit sampleFile "pw" 0 10))).2.1 rfl
